import Mathlib

/-!
Verification of the trust-chain resolution and presentation-session logic of
the isomdl-uniffi bindings (src/rust/src/mdl/{reader,mdoc,holder,verifier}.rs).

Shallow embedding conventions:
* X.509 certificates are abstracted to the fields the embedded code reads:
  subject DN, issuer DN, the decoded basic-constraints CA flag
  (`none` when the extension is absent or undecodable, mirroring the
  `and_then ... .unwrap_or(false)` pipeline), whether `to_pem` succeeds,
  and a tag distinguishing distinct certificates (key material identity).
* The ECDSA P-256 signature check `verify_signature(subject, issuer)` is an
  external cryptographic primitive; it is passed in as a boolean function
  `verif`.  The DN equality test `cert.issuer == trust_cert.subject` that the
  code performs before calling it is kept explicit in the embedding.
* Byte strings are `List Nat`.
-/

namespace IsomdlUniffi

/-- Abstraction of `x509_cert::Certificate` restricted to the fields the
embedded code inspects.  `basicConstraintsCA` is the decoded value of the
2.5.29.19 (basic constraints) extension, `none` when absent or undecodable;
`pemOk` records whether `to_pem` succeeds; `tag` distinguishes certificates. -/
structure Cert where
  subject : Nat
  issuerDn : Nat
  basicConstraintsCA : Option Bool
  pemOk : Bool
  tag : Nat
deriving DecidableEq, Repr

/-- The `is_ca` computation of both loops: the decoded basic-constraints CA
flag, defaulting to `false` (`.unwrap_or(false)`). -/
def is_ca (c : Cert) : Bool :=
  c.basicConstraintsCA.getD false

/-- State of the trust-resolution fixed-point loop shared by
`Mdoc::verify_issuer_signature` (mdoc.rs) and `verify_oid4vp_response`
(reader.rs): the indexed candidate pool, the `trusted_certs` vector, the
`pem_anchors` vector (modelled as the certificates the PEM strings encode),
and the `progress` flag. -/
structure ResolveState where
  candidates : List (Nat × Cert)
  trusted : List Cert
  registry : List Cert
  progress : Bool
deriving DecidableEq, Repr

/-- The inner trusted-certificate scan of a pass: some already-trusted
certificate has subject DN equal to the candidate's issuer DN and the
signature verifies against it. -/
def signedByTrusted (verif : Cert → Cert → Bool) (trusted : List Cert) (c : Cert) : Bool :=
  trusted.any fun t => c.issuerDn == t.subject && verif c t

/-- The index-collection phase of a pass: for each position `i` in the
candidate vector (in order), record `i` when the candidate at `i` is signed by
a trusted certificate. -/
def collectIndices (verif : Cert → Cert → Bool) (trusted : List Cert)
    (cands : List (Nat × Cert)) : List Nat :=
  (List.range cands.length).filter fun i =>
    match cands[i]? with
    | some c => signedByTrusted verif trusted c.2
    | none => false

/-- Descending insertion used to model `sort_by(|a, b| b.cmp(a))`. -/
def insertDesc (a : Nat) : List Nat → List Nat
  | [] => [a]
  | b :: t => if a ≥ b then a :: b :: t else b :: insertDesc a t

/-- Model of `new_trusted_indices.sort_by(|a, b| b.cmp(a))` followed by
`dedup()` (removal of consecutive duplicates). -/
def sortDescDedup (l : List Nat) : List Nat :=
  (l.foldr insertDesc []).destutter (· ≠ ·)

/-- The promotion step of reader.rs (`verify_oid4vp_response`): remove the
candidate at position `i`; only when it carries the CA basic-constraint and
re-encodes to PEM is it pushed into `pem_anchors` and `trusted_certs` and
`progress` set. -/
def readerPromoteStep (s : ResolveState) (i : Nat) : ResolveState :=
  match s.candidates[i]? with
  | none => s
  | some c =>
    let cands := s.candidates.eraseIdx i
    if is_ca c.2 then
      if c.2.pemOk then
        { candidates := cands, trusted := s.trusted ++ [c.2],
          registry := s.registry ++ [c.2], progress := true }
      else { s with candidates := cands }
    else { s with candidates := cands }

/-- The promotion step of mdoc.rs (`Mdoc::verify_issuer_signature`): remove
the candidate at position `i`; the CA flag (plus PEM re-encoding) gates only
the push into `pem_anchors`, while the certificate is unconditionally pushed
into `trusted_certs` and `progress` is set. -/
def mdocPromoteStep (s : ResolveState) (i : Nat) : ResolveState :=
  match s.candidates[i]? with
  | none => s
  | some c =>
    { candidates := s.candidates.eraseIdx i,
      trusted := s.trusted ++ [c.2],
      registry := if is_ca c.2 && c.2.pemOk then s.registry ++ [c.2] else s.registry,
      progress := true }

/-- One pass of the while loop: reset `progress`, collect the indices of
candidates signed by trusted certificates, sort them descending, dedup, and
fold the promotion step over them. -/
def onePass (promote : ResolveState → Nat → ResolveState) (verif : Cert → Cert → Bool)
    (s : ResolveState) : ResolveState :=
  (sortDescDedup (collectIndices verif s.trusted s.candidates)).foldl promote
    { s with progress := false }

/-- The `while progress` loop, with explicit fuel and a count of executed
passes.  The fuel supplied by the wrappers below is shown sufficient
(`resolveLoop_fuel_sufficient`): the `0` case is never reached from them. -/
def resolveLoop (promote : ResolveState → Nat → ResolveState) (verif : Cert → Cert → Bool) :
    Nat → ResolveState → ResolveState × Nat
  | 0, s => (s, 0)
  | fuel + 1, s =>
    let s1 := onePass promote verif s
    if s1.progress then
      let r := resolveLoop promote verif fuel s1
      (r.1, r.2 + 1)
    else (s1, 1)

/-- Candidate extraction from the x5chain CBOR array: entries that are byte
strings decoding to certificates enter the pool with their array index;
other entries are skipped.  An entry is modelled as `Option Cert`
(`none` = not a byte string, or `Certificate::from_der` failed). -/
def initCandidates (chain : List (Option Cert)) : List (Nat × Cert) :=
  (List.range chain.length).filterMap fun idx =>
    match chain[idx]? with
    | some (some c) => some (idx, c)
    | _ => none

/-- Initial loop state: `trusted_certs` and `pem_anchors` both start from the
supplied anchors (anchors are modelled post-parse), `progress` starts `true`. -/
def resolveInit (anchors : List Cert) (chain : List (Option Cert)) : ResolveState :=
  { candidates := initCandidates chain, trusted := anchors,
    registry := anchors, progress := true }

/-- The reader.rs copy of the fixed-point loop, run to completion.
Returns the final state and the number of passes executed. -/
def reader_resolve (verif : Cert → Cert → Bool) (anchors : List Cert)
    (chain : List (Option Cert)) : ResolveState × Nat :=
  resolveLoop readerPromoteStep verif ((initCandidates chain).length + 1)
    (resolveInit anchors chain)

/-- The mdoc.rs copy of the fixed-point loop, run to completion.
Returns the final state and the number of passes executed. -/
def mdoc_resolve (verif : Cert → Cert → Bool) (anchors : List Cert)
    (chain : List (Option Cert)) : ResolveState × Nat :=
  resolveLoop mdocPromoteStep verif ((initCandidates chain).length + 1)
    (resolveInit anchors chain)

/-! ### OID4VP verification (reader.rs, `verify_oid4vp_response`)

External collaborators (SHA-256, CBOR parsing of the device response,
`isomdl::presentation::reader::parse`, and
`isomdl::presentation::reader_utils::validate_response`) are passed in as
function parameters.  The two parse steps of the source (DeviceResponse
decoding and `reader::parse`) are combined into one `parse` parameter: both
precede every use of the transcript and of the registry, and a failure of
either aborts with an error (modelled as `none`).  Strings are modelled as
their UTF-8 byte sequences (`List Nat`). -/

/-- Tri-state authentication outcome (reader.rs `AuthenticationStatus`). -/
inductive AuthenticationStatus where
  | valid
  | invalid
  | unchecked
deriving DecidableEq, Repr

/-- OID4VPHandover = [clientIdHash: bstr, responseUriHash: bstr, nonce: tstr]. -/
structure OID4VPHandover where
  clientIdHash : List Nat
  responseUriHash : List Nat
  nonce : List Nat
deriving DecidableEq, Repr

/-- SessionTranscript = [null, null, OID4VPHandover]; the first two elements
are `Option<()>` values that this flow always leaves absent. -/
structure OID4VPSessionTranscript where
  deviceEngagementBytes : Option Unit
  eReaderKeyBytes : Option Unit
  handover : OID4VPHandover
deriving DecidableEq, Repr

/-- The outcome of `isomdl::presentation::reader::parse` on a parseable
device response, restricted to what the embedded code consumes: the x5chain
COSE header of `doc.issuer_signed.issuer_auth` (`none` when the header is
absent or not an array; entries are `none` when not a byte string or
undecodable), and abstract tokens for the `x5chain`, `doc` and `namespaces`
values that are forwarded to `validate_response`. -/
structure ParsedDoc where
  x5chainCbor : Option (List (Option Cert))
  x5 : Nat
  doc : Nat
  namespaces : Nat
deriving DecidableEq, Repr

/-- The part of `validate_response`'s output that the embedded code reads
(the per-namespace response data is abstracted to an opaque token). -/
structure ValidationResult where
  responseData : Nat
  issuer_authentication : AuthenticationStatus
  device_authentication : AuthenticationStatus
  errors : List Nat
deriving DecidableEq, Repr

/-- The record returned by `verify_oid4vp_response` (reader.rs
`MDLReaderVerifiedData`), response data abstracted. -/
structure MDLReaderVerifiedData where
  responseData : Nat
  issuer_authentication : AuthenticationStatus
  device_authentication : AuthenticationStatus
  errors : List Nat
deriving DecidableEq, Repr

/-- The trust-anchor registry handed to `validate_response`: with no anchors
supplied, an empty registry; with anchors and `use_intermediate_chaining`,
the `pem_anchors` produced by the reader.rs fixed-point loop over the
embedded x5chain (unchanged when the x5chain header is absent or not an
array); otherwise exactly the supplied anchors. -/
def oid4vpRegistry (verif : Cert → Cert → Bool) (anchors : Option (List Cert))
    (useIntermediateChaining : Bool) (x5chainCbor : Option (List (Option Cert))) :
    List Cert :=
  match anchors with
  | none => []
  | some pemAnchors =>
    if useIntermediateChaining then
      match x5chainCbor with
      | some entries => (reader_resolve verif pemAnchors entries).1.registry
      | none => pemAnchors
    else pemAnchors

/-- Embedding of `verify_oid4vp_response` (reader.rs): parse the response,
build the OID4VP session transcript
`[null, null, [SHA-256(clientId), SHA-256(responseUri), nonce]]`, build the
trust-anchor registry, and hand both to `validate_response`, whose statuses
and errors are returned.  Parse failure aborts (`none`, an error in the
source). -/
def verify_oid4vp_response (sha256 : List Nat → List Nat)
    (parse : List Nat → Option ParsedDoc)
    (validate : OID4VPSessionTranscript → List Cert → Nat → Nat → Nat → ValidationResult)
    (verif : Cert → Cert → Bool)
    (response nonce client_id response_uri : List Nat)
    (trust_anchor_registry : Option (List Cert)) (use_intermediate_chaining : Bool) :
    Option MDLReaderVerifiedData :=
  match parse response with
  | none => none
  | some pd =>
    let transcript : OID4VPSessionTranscript :=
      { deviceEngagementBytes := none
        eReaderKeyBytes := none
        handover :=
          { clientIdHash := sha256 client_id
            responseUriHash := sha256 response_uri
            nonce := nonce } }
    let registry :=
      oid4vpRegistry verif trust_anchor_registry use_intermediate_chaining pd.x5chainCbor
    let vr := validate transcript registry pd.x5 pd.doc pd.namespaces
    some { responseData := vr.responseData
           issuer_authentication := vr.issuer_authentication
           device_authentication := vr.device_authentication
           errors := vr.errors }

/-! ### Simplified verifier (verifier.rs, `MdocVerifier`)

PEM/document parsing is external; the parse functions are parameters and PEM
strings and mdoc strings are abstract tokens (`Nat`). -/

/-- The parsed mdoc restricted to what `MdocVerifier::verify` reads:
its document type and its display data (`details()`), both abstract. -/
structure MdocDoc where
  docType : Nat
  details : List (Nat × Nat)
deriving DecidableEq, Repr

/-- verifier.rs `VerificationResult`. -/
structure VerificationResult where
  valid : Bool
  doc_type : Nat
  data : List (Nat × Nat)
deriving DecidableEq, Repr

/-- Embedding of `MdocVerifier::verify_issuer_cert` (verifier.rs lines
113-131), verbatim: with zero trust anchors it returns `true` ("structure
validation only"), and with any trust anchors it also returns `true` (the
chain-validation steps are listed only in comments). -/
def verify_issuer_cert (_mdoc : MdocDoc) (trust_anchor_count : Nat) : Bool :=
  if trust_anchor_count == 0 then true else true

/-- Embedding of `MdocVerifier::verify` (verifier.rs): anchors that fail to
parse are skipped (`filterMap`), the mdoc string is parsed (failure is the
only error path), `verify_issuer_cert` decides the `valid` field, and the
document data is copied out. -/
def MdocVerifier.verify (parseAnchor : Nat → Option Cert) (parseMdoc : Nat → Option MdocDoc)
    (mdoc_string : Nat) (trust_anchor_pems : List Nat) : Option VerificationResult :=
  let trust_anchors := trust_anchor_pems.filterMap parseAnchor
  match parseMdoc mdoc_string with
  | none => none
  | some m =>
    let is_trusted := verify_issuer_cert m trust_anchors.length
    some { valid := is_trusted, doc_type := m.docType, data := m.details }

/-! ### Holder presentation session (holder.rs, `MdlPresentationSession`)

The underlying `isomdl::presentation::device::SessionManager` is an external
collaborator; its signing-related behaviour is modelled from the spec (see
`SessionManager` below).  The P-256 signature parse
(`p256::ecdsa::Signature::from_slice`) is external and passed in as
`parseSig`, returning the normalized signature bytes (`to_bytes`) on
success. -/

/-- holder.rs `SignatureError`; the message payloads of `InvalidSignature`
and `Generic` are dropped. -/
inductive SignatureError where
  | invalidSignature
  | tooManyDocuments
  | generic
deriving DecidableEq, Repr

/-- Modelled from the spec: the underlying isomdl device `SessionManager`
(an external crate, not part of this repository's sources).  Per spec §4.2
and §6, `prepare_response` yields the to-be-signed payloads of the exchange
(`pendingPayloads`); `submit_next_signature` binds a signature to the first
pending payload and fails when none is pending (wrong state);
`retrieve_response` yields the final response bytes only when no payload
remains pending, so a leftover payload surfaces as the `TooManyDocuments`
capacity error in `submit_response`. -/
structure SessionManager where
  pendingPayloads : List (List Nat)
  submitted : List (List Nat)
  responseBytes : List Nat
deriving DecidableEq, Repr

/-- Modelled from the spec: bind a signature to the first pending payload;
with nothing pending the signing step fails and the session is unchanged. -/
def submit_next_signature (s : SessionManager) (sig : List Nat) : Option SessionManager :=
  match s.pendingPayloads with
  | [] => none
  | _ :: rest => some { s with pendingPayloads := rest, submitted := s.submitted ++ [sig] }

/-- Modelled from the spec: the final response is available only once every
pending payload has been signed. -/
def retrieve_response (s : SessionManager) : Option (List Nat) :=
  if s.pendingPayloads.isEmpty then some s.responseBytes else none

/-- holder.rs `InProcessRecord`: the live session plus the requested items
(abstracted). -/
structure InProcessRecord where
  session : SessionManager
  items_request : List Nat
deriving DecidableEq, Repr

/-- The mutable state of holder.rs `MdlPresentationSession` that
`generate_response`/`submit_response` touch.  The engaged state, QR URI and
BLE ident are immutable after construction and never read by the embedded
operations, so they are omitted. -/
structure MdlPresentationSession where
  in_process : Option InProcessRecord
deriving DecidableEq, Repr

/-- Embedding of `MdlPresentationSession::generate_response` (holder.rs):
with no exchange in process the wrong-state `Generic` error is returned;
otherwise `prepare_response` (external, parameter `prepare`) fills the
pending payloads and the first one is returned, or the `Generic` error when
there is none.  Returns the result together with the updated session. -/
def generate_response (prepare : List Nat → List Nat → List (List Nat))
    (st : MdlPresentationSession) (permitted_items : List Nat) :
    Except SignatureError (List Nat) × MdlPresentationSession :=
  match st.in_process with
  | none => (.error .generic, st)
  | some ip =>
    let payloads := prepare ip.items_request permitted_items
    let st1 : MdlPresentationSession :=
      { in_process := some { ip with session := { ip.session with pendingPayloads := payloads } } }
    match payloads with
    | [] => (.error .generic, st1)
    | p :: _ => (.ok p, st1)

/-- Embedding of `MdlPresentationSession::submit_response` (holder.rs): the
signature bytes are parsed first (failure: `InvalidSignature`, before any
state is consulted); with no exchange in process the wrong-state `Generic`
error is returned; otherwise the signature is submitted to the session
(failure: `Generic`) and `retrieve_response` either yields the final bytes
or reports `TooManyDocuments`.  Returns the result together with the updated
session. -/
def submit_response (parseSig : List Nat → Option (List Nat))
    (st : MdlPresentationSession) (signature : List Nat) :
    Except SignatureError (List Nat) × MdlPresentationSession :=
  match parseSig signature with
  | none => (.error .invalidSignature, st)
  | some sigBytes =>
    match st.in_process with
    | none => (.error .generic, st)
    | some ip =>
      match submit_next_signature ip.session sigBytes with
      | none => (.error .generic, st)
      | some sess =>
        let st1 : MdlPresentationSession := { in_process := some { ip with session := sess } }
        match retrieve_response sess with
        | none => (.error .tooManyDocuments, st1)
        | some bytes => (.ok bytes, st1)

/-- A holder session on which `generate_response` has not (successfully) run
for the current exchange: either no exchange is in process (no request
handled) or the in-process session has no pending signature payload. -/
def generateNotCalled (st : MdlPresentationSession) : Bool :=
  match st.in_process with
  | none => true
  | some ip => ip.session.pendingPayloads.isEmpty

/-! ### Structural properties shared by the two promotion steps -/

/-- Properties of a promotion step used by the loop lemmas: the candidate
pool never grows, the `progress` flag is never reset, fresh progress implies
a strictly smaller pool, the promoted pool is a sub-collection of the old
one, and `trusted_certs` / `pem_anchors` only ever grow. -/
def PromoteStepOk (p : ResolveState → Nat → ResolveState) : Prop :=
  ∀ s i,
    (p s i).candidates.length ≤ s.candidates.length ∧
    (s.progress = true → (p s i).progress = true) ∧
    ((p s i).progress = true → s.progress = true ∨
      (p s i).candidates.length < s.candidates.length) ∧
    (∀ pc, pc ∈ (p s i).candidates → pc ∈ s.candidates) ∧
    (∀ c, c ∈ s.trusted → c ∈ (p s i).trusted) ∧
    (∀ c, c ∈ s.registry → c ∈ (p s i).registry)

/-- All candidates of a state are CA-flagged and PEM-re-encodable; on such
states the two promotion steps coincide. -/
def AllCA (s : ResolveState) : Prop :=
  ∀ pc, pc ∈ s.candidates → is_ca pc.2 = true ∧ pc.2.pemOk = true

theorem length_eraseIdx_lt {l : List (Nat × Cert)} {i : Nat} (h : i < l.length) :
    (l.eraseIdx i).length < l.length := by
  rw [List.length_eraseIdx]
  simp only [h, if_true]
  omega

theorem readerPromoteStep_ok : PromoteStepOk readerPromoteStep := by
  intro s i
  unfold readerPromoteStep
  cases h : s.candidates[i]? with
  | none =>
    refine ⟨Nat.le_refl _, fun hp => hp, fun hp => Or.inl hp, ?_, ?_, ?_⟩ <;>
      exact fun c hc => hc
  | some c =>
    obtain ⟨hi, -⟩ := List.getElem?_eq_some.mp h
    have hlt := length_eraseIdx_lt hi
    have hsub := List.eraseIdx_subset s.candidates i
    dsimp only
    split
    · split
      · exact ⟨Nat.le_of_lt hlt, fun _ => rfl, fun _ => Or.inr hlt,
          fun pc hpc => hsub hpc,
          fun c hc => List.mem_append_left _ hc,
          fun c hc => List.mem_append_left _ hc⟩
      · exact ⟨Nat.le_of_lt hlt, fun hp => hp, fun hp => Or.inl hp,
          fun pc hpc => hsub hpc, fun c hc => hc, fun c hc => hc⟩
    · exact ⟨Nat.le_of_lt hlt, fun hp => hp, fun hp => Or.inl hp,
        fun pc hpc => hsub hpc, fun c hc => hc, fun c hc => hc⟩

theorem mdocPromoteStep_ok : PromoteStepOk mdocPromoteStep := by
  intro s i
  unfold mdocPromoteStep
  cases h : s.candidates[i]? with
  | none =>
    refine ⟨Nat.le_refl _, fun hp => hp, fun hp => Or.inl hp, ?_, ?_, ?_⟩ <;>
      exact fun c hc => hc
  | some c =>
    obtain ⟨hi, -⟩ := List.getElem?_eq_some.mp h
    have hlt := length_eraseIdx_lt hi
    have hsub := List.eraseIdx_subset s.candidates i
    dsimp only
    refine ⟨Nat.le_of_lt hlt, fun _ => rfl, fun _ => Or.inr hlt,
      fun pc hpc => hsub hpc,
      fun c hc => List.mem_append_left _ hc, fun c hc => ?_⟩
    split
    · exact List.mem_append_left _ hc
    · exact hc

theorem foldl_promote_length_le {p : ResolveState → Nat → ResolveState}
    (hp : PromoteStepOk p) (l : List Nat) (s : ResolveState) :
    (l.foldl p s).candidates.length ≤ s.candidates.length := by
  induction l generalizing s with
  | nil => exact Nat.le_refl _
  | cons a l ih => exact Nat.le_trans (ih (p s a)) (hp s a).1

theorem foldl_promote_shrink {p : ResolveState → Nat → ResolveState}
    (hp : PromoteStepOk p) (l : List Nat) (s : ResolveState)
    (h : (l.foldl p s).progress = true) :
    s.progress = true ∨ (l.foldl p s).candidates.length < s.candidates.length := by
  induction l generalizing s with
  | nil => exact Or.inl h
  | cons a l ih =>
    rcases ih (p s a) h with h1 | h1
    · rcases (hp s a).2.2.1 h1 with h2 | h2
      · exact Or.inl h2
      · exact Or.inr (Nat.lt_of_le_of_lt (foldl_promote_length_le hp l (p s a)) h2)
    · exact Or.inr (Nat.lt_of_lt_of_le h1 (hp s a).1)

theorem foldl_promote_mem_trusted {p : ResolveState → Nat → ResolveState}
    (hp : PromoteStepOk p) (l : List Nat) (s : ResolveState) {c : Cert}
    (h : c ∈ s.trusted) : c ∈ (l.foldl p s).trusted := by
  induction l generalizing s with
  | nil => exact h
  | cons a l ih => exact ih (p s a) ((hp s a).2.2.2.2.1 c h)

theorem foldl_promote_mem_registry {p : ResolveState → Nat → ResolveState}
    (hp : PromoteStepOk p) (l : List Nat) (s : ResolveState) {c : Cert}
    (h : c ∈ s.registry) : c ∈ (l.foldl p s).registry := by
  induction l generalizing s with
  | nil => exact h
  | cons a l ih => exact ih (p s a) ((hp s a).2.2.2.2.2 c h)

theorem foldl_promote_candidates_sub {p : ResolveState → Nat → ResolveState}
    (hp : PromoteStepOk p) (l : List Nat) (s : ResolveState) {pc : Nat × Cert}
    (h : pc ∈ (l.foldl p s).candidates) : pc ∈ s.candidates := by
  induction l generalizing s with
  | nil => exact h
  | cons a l ih => exact (hp s a).2.2.2.1 pc (ih (p s a) h)

theorem onePass_length_le {p : ResolveState → Nat → ResolveState}
    (hp : PromoteStepOk p) (verif : Cert → Cert → Bool) (s : ResolveState) :
    (onePass p verif s).candidates.length ≤ s.candidates.length :=
  foldl_promote_length_le hp _ _

theorem onePass_shrink {p : ResolveState → Nat → ResolveState}
    (hp : PromoteStepOk p) (verif : Cert → Cert → Bool) (s : ResolveState)
    (h : (onePass p verif s).progress = true) :
    (onePass p verif s).candidates.length < s.candidates.length := by
  rcases foldl_promote_shrink hp _ _ h with h1 | h1
  · exact absurd h1 (by simp)
  · exact h1

theorem onePass_mem_trusted {p : ResolveState → Nat → ResolveState}
    (hp : PromoteStepOk p) (verif : Cert → Cert → Bool) (s : ResolveState) {c : Cert}
    (h : c ∈ s.trusted) : c ∈ (onePass p verif s).trusted :=
  foldl_promote_mem_trusted hp _ _ h

theorem onePass_mem_registry {p : ResolveState → Nat → ResolveState}
    (hp : PromoteStepOk p) (verif : Cert → Cert → Bool) (s : ResolveState) {c : Cert}
    (h : c ∈ s.registry) : c ∈ (onePass p verif s).registry :=
  foldl_promote_mem_registry hp _ _ h

theorem resolveLoop_mem_trusted {p : ResolveState → Nat → ResolveState}
    (hp : PromoteStepOk p) (verif : Cert → Cert → Bool) (fuel : Nat) (s : ResolveState)
    {c : Cert} (h : c ∈ s.trusted) : c ∈ (resolveLoop p verif fuel s).1.trusted := by
  induction fuel generalizing s with
  | zero => exact h
  | succ n ih =>
    simp only [resolveLoop]
    split
    · exact ih _ (onePass_mem_trusted hp verif s h)
    · exact onePass_mem_trusted hp verif s h

theorem resolveLoop_mem_registry {p : ResolveState → Nat → ResolveState}
    (hp : PromoteStepOk p) (verif : Cert → Cert → Bool) (fuel : Nat) (s : ResolveState)
    {c : Cert} (h : c ∈ s.registry) : c ∈ (resolveLoop p verif fuel s).1.registry := by
  induction fuel generalizing s with
  | zero => exact h
  | succ n ih =>
    simp only [resolveLoop]
    split
    · exact ih _ (onePass_mem_registry hp verif s h)
    · exact onePass_mem_registry hp verif s h

theorem resolveLoop_fuel_sufficient {p : ResolveState → Nat → ResolveState}
    (hp : PromoteStepOk p) (verif : Cert → Cert → Bool) (fuel : Nat) (s : ResolveState)
    (h : s.candidates.length < fuel) :
    (resolveLoop p verif fuel s).1.progress = false ∧
      (resolveLoop p verif fuel s).2 ≤ s.candidates.length + 1 := by
  induction fuel generalizing s with
  | zero => exact absurd h (Nat.not_lt_zero _)
  | succ n ih =>
    simp only [resolveLoop]
    cases hp1 : (onePass p verif s).progress with
    | false => simp [hp1]
    | true =>
      have hlt := onePass_shrink hp verif s hp1
      obtain ⟨ha, hb⟩ := ih (onePass p verif s) (by omega)
      simp only [hp1, if_true]
      exact ⟨ha, by omega⟩

/-! ### CA-gating invariants -/

theorem readerPromoteStep_trusted_sub (s : ResolveState) (i : Nat) {c : Cert}
    (h : c ∈ (readerPromoteStep s i).trusted) : c ∈ s.trusted ∨ is_ca c = true := by
  unfold readerPromoteStep at h
  cases hg : s.candidates[i]? with
  | none => rw [hg] at h; exact Or.inl h
  | some pc =>
    rw [hg] at h
    dsimp only at h
    split at h
    · rename_i hca
      split at h
      · rcases List.mem_append.mp h with h1 | h1
        · exact Or.inl h1
        · rcases List.mem_singleton.mp h1 with rfl
          exact Or.inr hca
      · exact Or.inl h
    · exact Or.inl h

theorem readerPromoteStep_registry_sub (s : ResolveState) (i : Nat) {c : Cert}
    (h : c ∈ (readerPromoteStep s i).registry) : c ∈ s.registry ∨ is_ca c = true := by
  unfold readerPromoteStep at h
  cases hg : s.candidates[i]? with
  | none => rw [hg] at h; exact Or.inl h
  | some pc =>
    rw [hg] at h
    dsimp only at h
    split at h
    · rename_i hca
      split at h
      · rcases List.mem_append.mp h with h1 | h1
        · exact Or.inl h1
        · rcases List.mem_singleton.mp h1 with rfl
          exact Or.inr hca
      · exact Or.inl h
    · exact Or.inl h

theorem mdocPromoteStep_registry_sub (s : ResolveState) (i : Nat) {c : Cert}
    (h : c ∈ (mdocPromoteStep s i).registry) : c ∈ s.registry ∨ is_ca c = true := by
  unfold mdocPromoteStep at h
  cases hg : s.candidates[i]? with
  | none => rw [hg] at h; exact Or.inl h
  | some pc =>
    rw [hg] at h
    dsimp only at h
    split at h
    · rename_i hca
      rcases List.mem_append.mp h with h1 | h1
      · exact Or.inl h1
      · rcases List.mem_singleton.mp h1 with rfl
        exact Or.inr (Bool.and_elim_left hca)
    · exact Or.inl h

theorem foldl_promote_field_sub {p : ResolveState → Nat → ResolveState}
    (F : ResolveState → List Cert)
    (hstep : ∀ s i {c : Cert}, c ∈ F (p s i) → c ∈ F s ∨ is_ca c = true)
    (l : List Nat) (s : ResolveState) {c : Cert}
    (h : c ∈ F (l.foldl p s)) : c ∈ F s ∨ is_ca c = true := by
  induction l generalizing s with
  | nil => exact Or.inl h
  | cons a l ih =>
    rcases ih (p s a) h with h1 | h1
    · exact hstep s a h1
    · exact Or.inr h1

theorem resolveLoop_field_sub {p : ResolveState → Nat → ResolveState}
    (F : ResolveState → List Cert)
    (hstep : ∀ s i {c : Cert}, c ∈ F (p s i) → c ∈ F s ∨ is_ca c = true)
    (hreset : ∀ s, F { s with progress := false } = F s)
    (verif : Cert → Cert → Bool) (fuel : Nat) (s : ResolveState) {c : Cert}
    (h : c ∈ F (resolveLoop p verif fuel s).1) : c ∈ F s ∨ is_ca c = true := by
  induction fuel generalizing s with
  | zero => exact Or.inl h
  | succ n ih =>
    have hone : ∀ t : ResolveState, c ∈ F (onePass p verif t) → c ∈ F t ∨ is_ca c = true := by
      intro t ht
      rcases foldl_promote_field_sub F hstep _ _ ht with h1 | h1
      · rw [hreset t] at h1; exact Or.inl h1
      · exact Or.inr h1
    simp only [resolveLoop] at h
    split at h
    · rcases ih _ h with h1 | h1
      · exact hone s h1
      · exact Or.inr h1
    · exact hone s h

/-! ### Equivalence of the two loops on CA-only chains -/

theorem promoteStep_eq_of_allCA (s : ResolveState) (i : Nat) (h : AllCA s) :
    readerPromoteStep s i = mdocPromoteStep s i := by
  unfold readerPromoteStep mdocPromoteStep
  cases hg : s.candidates[i]? with
  | none => rfl
  | some pc =>
    obtain ⟨hi, he⟩ := List.getElem?_eq_some.mp hg
    have hmem : pc ∈ s.candidates := he ▸ List.getElem_mem hi
    obtain ⟨hca, hpem⟩ := h pc hmem
    simp [hca, hpem]

theorem promoteStep_allCA_preserved {p : ResolveState → Nat → ResolveState}
    (hp : PromoteStepOk p) (s : ResolveState) (i : Nat) (h : AllCA s) :
    AllCA (p s i) :=
  fun pc hpc => h pc ((hp s i).2.2.2.1 pc hpc)

theorem foldl_promote_eq_of_allCA (l : List Nat) (s : ResolveState) (h : AllCA s) :
    l.foldl readerPromoteStep s = l.foldl mdocPromoteStep s := by
  induction l generalizing s with
  | nil => rfl
  | cons a l ih =>
    have hstep := promoteStep_eq_of_allCA s a h
    have h1 : AllCA (readerPromoteStep s a) :=
      promoteStep_allCA_preserved readerPromoteStep_ok s a h
    simp only [List.foldl_cons, hstep]
    exact hstep ▸ ih (readerPromoteStep s a) h1

theorem onePass_eq_of_allCA (verif : Cert → Cert → Bool) (s : ResolveState) (h : AllCA s) :
    onePass readerPromoteStep verif s = onePass mdocPromoteStep verif s := by
  unfold onePass
  exact foldl_promote_eq_of_allCA _ _ (fun pc hpc => h pc hpc)

theorem onePass_allCA_preserved {p : ResolveState → Nat → ResolveState}
    (hp : PromoteStepOk p) (verif : Cert → Cert → Bool) (s : ResolveState) (h : AllCA s) :
    AllCA (onePass p verif s) := by
  intro pc hpc
  unfold onePass at hpc
  have h2 : pc ∈ ({ s with progress := false } : ResolveState).candidates :=
    foldl_promote_candidates_sub hp _ _ hpc
  exact h pc h2

theorem resolveLoop_eq_of_allCA (verif : Cert → Cert → Bool) (fuel : Nat)
    (s : ResolveState) (h : AllCA s) :
    resolveLoop readerPromoteStep verif fuel s = resolveLoop mdocPromoteStep verif fuel s := by
  induction fuel generalizing s with
  | zero => rfl
  | succ n ih =>
    have hone := onePass_eq_of_allCA verif s h
    have h1 : AllCA (onePass readerPromoteStep verif s) :=
      onePass_allCA_preserved readerPromoteStep_ok verif s h
    simp only [resolveLoop, hone]
    rw [← hone]
    split
    · rw [ih _ h1, hone]
    · rfl

theorem mem_chain_of_mem_initCandidates {chain : List (Option Cert)} {pc : Nat × Cert}
    (h : pc ∈ initCandidates chain) : some pc.2 ∈ chain := by
  unfold initCandidates at h
  obtain ⟨a, -, hf⟩ := List.mem_filterMap.mp h
  cases hg : chain[a]? with
  | none => rw [hg] at hf; exact absurd hf (by simp)
  | some o =>
    rw [hg] at hf
    cases o with
    | none => exact absurd hf (by simp)
    | some c =>
      simp only [Option.some.injEq] at hf
      obtain ⟨hi, he⟩ := List.getElem?_eq_some.mp hg
      rw [← hf]
      exact he ▸ List.getElem_mem hi

/-- C7: for every signature primitive, anchor set and candidate chain, every
certificate supplied as an anchor is still present, after trust resolution,
in the trusted-certificate set and in the trust-anchor registry of both
copies of the fixed-point loop (reader.rs `verify_oid4vp_response` and
mdoc.rs `Mdoc::verify_issuer_signature`): resolution only ever adds. -/
theorem anchors_never_removed (verif : Cert → Cert → Bool) (anchors : List Cert)
    (chain : List (Option Cert)) (c : Cert) (h : c ∈ anchors) :
    c ∈ (reader_resolve verif anchors chain).1.trusted ∧
      c ∈ (reader_resolve verif anchors chain).1.registry ∧
      c ∈ (mdoc_resolve verif anchors chain).1.trusted ∧
      c ∈ (mdoc_resolve verif anchors chain).1.registry :=
  ⟨resolveLoop_mem_trusted readerPromoteStep_ok verif _ _ h,
   resolveLoop_mem_registry readerPromoteStep_ok verif _ _ h,
   resolveLoop_mem_trusted mdocPromoteStep_ok verif _ _ h,
   resolveLoop_mem_registry mdocPromoteStep_ok verif _ _ h⟩

/-- Witness for C7 at a concrete anchor, chain and signature primitive. -/
theorem anchors_never_removed_witness :
    (⟨0, 99, some true, true, 10⟩ : Cert) ∈ [(⟨0, 99, some true, true, 10⟩ : Cert)] ∧
      ((⟨0, 99, some true, true, 10⟩ : Cert) ∈
          (reader_resolve (fun _ _ => true) [⟨0, 99, some true, true, 10⟩]
            [some ⟨1, 0, some false, true, 11⟩]).1.trusted ∧
        (⟨0, 99, some true, true, 10⟩ : Cert) ∈
          (reader_resolve (fun _ _ => true) [⟨0, 99, some true, true, 10⟩]
            [some ⟨1, 0, some false, true, 11⟩]).1.registry ∧
        (⟨0, 99, some true, true, 10⟩ : Cert) ∈
          (mdoc_resolve (fun _ _ => true) [⟨0, 99, some true, true, 10⟩]
            [some ⟨1, 0, some false, true, 11⟩]).1.trusted ∧
        (⟨0, 99, some true, true, 10⟩ : Cert) ∈
          (mdoc_resolve (fun _ _ => true) [⟨0, 99, some true, true, 10⟩]
            [some ⟨1, 0, some false, true, 11⟩]).1.registry) :=
  ⟨by decide, anchors_never_removed (fun _ _ => true) _ _ _ (by decide)⟩

/-- C1 (amended): a verified-but-non-CA candidate is never promoted into the
trusted set or the registry of the reader.rs loop, and never into the
registry (`pem_anchors`) of the mdoc.rs loop — but the mdoc.rs loop does
push it into the trusted set used to verify later candidates (see the
counterexample): every certificate in those three collections is either a
supplied anchor or carries the CA basic-constraint. -/
theorem nonCA_never_anchor_material (verif : Cert → Cert → Bool) (anchors : List Cert)
    (chain : List (Option Cert)) (c : Cert)
    (h : c ∈ (reader_resolve verif anchors chain).1.trusted ∨
      c ∈ (reader_resolve verif anchors chain).1.registry ∨
      c ∈ (mdoc_resolve verif anchors chain).1.registry) :
    c ∈ anchors ∨ is_ca c = true := by
  rcases h with h | h | h
  · exact resolveLoop_field_sub (fun t => t.trusted) readerPromoteStep_trusted_sub
      (fun _ => rfl) verif _ _ h
  · exact resolveLoop_field_sub (fun t => t.registry) readerPromoteStep_registry_sub
      (fun _ => rfl) verif _ _ h
  · exact resolveLoop_field_sub (fun t => t.registry) mdocPromoteStep_registry_sub
      (fun _ => rfl) verif _ _ h

/-- Witness for the amended C1 at a concrete run. -/
theorem nonCA_never_anchor_material_witness :
    ((⟨0, 99, some true, true, 10⟩ : Cert) ∈
        (reader_resolve (fun _ _ => true) [⟨0, 99, some true, true, 10⟩]
          [some ⟨1, 0, some false, true, 11⟩]).1.trusted ∨
      (⟨0, 99, some true, true, 10⟩ : Cert) ∈
        (reader_resolve (fun _ _ => true) [⟨0, 99, some true, true, 10⟩]
          [some ⟨1, 0, some false, true, 11⟩]).1.registry ∨
      (⟨0, 99, some true, true, 10⟩ : Cert) ∈
        (mdoc_resolve (fun _ _ => true) [⟨0, 99, some true, true, 10⟩]
          [some ⟨1, 0, some false, true, 11⟩]).1.registry) ∧
    ((⟨0, 99, some true, true, 10⟩ : Cert) ∈ [(⟨0, 99, some true, true, 10⟩ : Cert)] ∨
      is_ca ⟨0, 99, some true, true, 10⟩ = true) :=
  ⟨Or.inl (by decide),
   nonCA_never_anchor_material (fun _ _ => true) [⟨0, 99, some true, true, 10⟩]
     [some ⟨1, 0, some false, true, 11⟩] ⟨0, 99, some true, true, 10⟩
     (Or.inl (by decide))⟩

/-- Counterexample to C1 as stated: in the mdoc.rs copy of the loop, a
candidate that verifies against a trusted anchor but does not carry the CA
basic-constraint IS promoted into the trusted set used to verify later
candidates (it is kept out of the registry only). -/
theorem mdoc_promotes_nonCA_into_trusted :
    (⟨1, 0, some false, true, 11⟩ : Cert) ∈
      (mdoc_resolve (fun _ _ => true) [⟨0, 99, some true, true, 10⟩]
        [some ⟨1, 0, some false, true, 11⟩]).1.trusted ∧
    is_ca ⟨1, 0, some false, true, 11⟩ = false ∧
    (⟨1, 0, some false, true, 11⟩ : Cert) ∉ [(⟨0, 99, some true, true, 10⟩ : Cert)] := by
  decide

/-- C4 (amended): the two copies of the fixed-point loop coincide whenever
every decodable certificate in the candidate chain is CA-flagged and
PEM-re-encodable; in general they differ exactly on verified non-CA
candidates (see the counterexample). -/
theorem trust_loops_agree_on_ca_chains (verif : Cert → Cert → Bool) (anchors : List Cert)
    (chain : List (Option Cert))
    (h : ∀ c : Cert, some c ∈ chain → is_ca c = true ∧ c.pemOk = true) :
    reader_resolve verif anchors chain = mdoc_resolve verif anchors chain := by
  unfold reader_resolve mdoc_resolve
  apply resolveLoop_eq_of_allCA
  intro pc hpc
  exact h pc.2 (mem_chain_of_mem_initCandidates hpc)

/-- Witness for the amended C4 on a concrete CA-only chain. -/
theorem trust_loops_agree_on_ca_chains_witness :
    (∀ c : Cert, some c ∈ [some (⟨1, 0, some true, true, 11⟩ : Cert)] →
      is_ca c = true ∧ c.pemOk = true) ∧
    reader_resolve (fun _ _ => true) [⟨0, 99, some true, true, 10⟩]
        [some ⟨1, 0, some true, true, 11⟩] =
      mdoc_resolve (fun _ _ => true) [⟨0, 99, some true, true, 10⟩]
        [some ⟨1, 0, some true, true, 11⟩] := by
  have hca : ∀ c : Cert, some c ∈ [some (⟨1, 0, some true, true, 11⟩ : Cert)] →
      is_ca c = true ∧ c.pemOk = true := by
    intro c hc
    simp only [List.mem_singleton, Option.some.injEq] at hc
    subst hc
    decide
  exact ⟨hca, trust_loops_agree_on_ca_chains (fun _ _ => true) _ _ hca⟩

/-- Counterexample to C4 as stated: from the same anchors and candidates the
two loops produce different expanded trusted sets (the mdoc.rs copy keeps
the verified non-CA leaf, the reader.rs copy does not). -/
theorem trust_loops_differ :
    (reader_resolve (fun _ _ => true) [⟨0, 99, some true, true, 10⟩]
        [some ⟨1, 0, some false, true, 11⟩]).1.trusted ≠
      (mdoc_resolve (fun _ _ => true) [⟨0, 99, some true, true, 10⟩]
        [some ⟨1, 0, some false, true, 11⟩]).1.trusted := by
  decide

/-- C8 (amended): both loops stop at the first pass that sets no progress,
any pass that reports progress strictly shrinks the candidate pool, and the
total number of executed passes is at most `n + 1` for `n` decodable
candidates (the final, promotion-free pass is the `+ 1`; the claim's bound
`n` misses it — see the counterexample). -/
theorem resolver_pass_bound (verif : Cert → Cert → Bool) (anchors : List Cert)
    (chain : List (Option Cert)) (s : ResolveState) :
    (reader_resolve verif anchors chain).2 ≤ (initCandidates chain).length + 1 ∧
    (reader_resolve verif anchors chain).1.progress = false ∧
    (mdoc_resolve verif anchors chain).2 ≤ (initCandidates chain).length + 1 ∧
    (mdoc_resolve verif anchors chain).1.progress = false ∧
    ((onePass readerPromoteStep verif s).progress = false ∨
      (onePass readerPromoteStep verif s).candidates.length < s.candidates.length) ∧
    ((onePass mdocPromoteStep verif s).progress = false ∨
      (onePass mdocPromoteStep verif s).candidates.length < s.candidates.length) := by
  have hr := resolveLoop_fuel_sufficient readerPromoteStep_ok verif
    ((initCandidates chain).length + 1) (resolveInit anchors chain) (Nat.lt_succ_self _)
  have hm := resolveLoop_fuel_sufficient mdocPromoteStep_ok verif
    ((initCandidates chain).length + 1) (resolveInit anchors chain) (Nat.lt_succ_self _)
  refine ⟨hr.2, hr.1, hm.2, hm.1, ?_, ?_⟩
  · cases hp1 : (onePass readerPromoteStep verif s).progress with
    | false => exact Or.inl rfl
    | true => exact Or.inr (onePass_shrink readerPromoteStep_ok verif s hp1)
  · cases hp1 : (onePass mdocPromoteStep verif s).progress with
    | false => exact Or.inl rfl
    | true => exact Or.inr (onePass_shrink mdocPromoteStep_ok verif s hp1)

/-- Counterexample to C8 as stated: on an empty candidate chain (`n = 0`)
both loops still execute one (promotion-free) pass, exceeding the claimed
bound of `n` passes. -/
theorem resolver_runs_final_pass :
    (initCandidates ([] : List (Option Cert))).length = 0 ∧
    (reader_resolve (fun _ _ => true) [] []).2 = 1 ∧
    (mdoc_resolve (fun _ _ => true) [] []).2 = 1 ∧
    ¬((reader_resolve (fun _ _ => true) [] []).2 ≤
        (initCandidates ([] : List (Option Cert))).length) := by
  decide

/-! ### Holder session claims -/

/-- C10: `submit_response` validates the shape of the signature bytes before
consulting any session state: whenever the P-256 parse fails, the result is
the `InvalidSignature` error — for every session state — and the session is
returned unchanged. -/
theorem invalid_signature_rejected_first (parseSig : List Nat → Option (List Nat))
    (st : MdlPresentationSession) (sig : List Nat) (h : parseSig sig = none) :
    submit_response parseSig st sig = (.error .invalidSignature, st) := by
  unfold submit_response
  rw [h]

/-- Witness for C10 on a mid-exchange session state: malformed bytes yield
`InvalidSignature`, not a wrong-state error, and the state is untouched. -/
theorem invalid_signature_rejected_first_witness :
    (fun l : List Nat => if l.length = 64 then some l else none) [1, 2, 3] = none ∧
    submit_response (fun l : List Nat => if l.length = 64 then some l else none)
        ⟨some ⟨⟨[[7]], [], [5]⟩, [0]⟩⟩ [1, 2, 3] =
      (.error .invalidSignature, ⟨some ⟨⟨[[7]], [], [5]⟩, [0]⟩⟩) :=
  ⟨rfl, invalid_signature_rejected_first
    (fun l : List Nat => if l.length = 64 then some l else none)
    ⟨some ⟨⟨[[7]], [], [5]⟩, [0]⟩⟩ [1, 2, 3] rfl⟩

/-- C5 (amended): on a session on which `generate_response` has not run for
the current exchange, `submit_response` always fails and leaves the session
unchanged, but the error is `InvalidSignature` when the signature bytes fail
the shape check (which precedes the state check) and the wrong-state
`Generic` error otherwise; the code has no dedicated protocol-state error
variant. -/
theorem submit_before_generate (parseSig : List Nat → Option (List Nat))
    (st : MdlPresentationSession) (sig : List Nat) (h : generateNotCalled st = true) :
    submit_response parseSig st sig =
      (.error (match parseSig sig with
        | none => SignatureError.invalidSignature
        | some _ => SignatureError.generic), st) := by
  unfold generateNotCalled at h
  unfold submit_response
  cases hp : parseSig sig with
  | none => rfl
  | some b =>
    cases hip : st.in_process with
    | none => rfl
    | some ip =>
      rw [hip] at h
      dsimp only
      have hpp : ip.session.pendingPayloads = [] := List.isEmpty_iff.mp h
      unfold submit_next_signature
      rw [hpp]

/-- Witness for the amended C5: a fresh session (no request handled) with
well-formed signature bytes gets the wrong-state `Generic` error and an
unchanged session. -/
theorem submit_before_generate_witness :
    generateNotCalled ⟨none⟩ = true ∧
    submit_response (fun l : List Nat => some l) ⟨none⟩ [9] =
      (.error SignatureError.generic, ⟨none⟩) :=
  ⟨rfl, submit_before_generate (fun l : List Nat => some l) ⟨none⟩ [9] rfl⟩

/-- Counterexample to C5 as stated: before `generate_response`, calling
`submit_response` with malformed signature bytes does not produce a
protocol-state error — the shape check runs first and reports
`InvalidSignature`. -/
theorem submit_before_generate_shape_error :
    (submit_response (fun l : List Nat => if l.length = 64 then some l else none)
        ⟨none⟩ []).1 = .error SignatureError.invalidSignature ∧
    SignatureError.invalidSignature ≠ SignatureError.generic :=
  ⟨rfl, by decide⟩

/-- C6: when the signing step left more than one pending payload for the
exchange, `submit_response` (with parseable signature bytes) fails with the
`TooManyDocuments` capacity error and returns no response bytes. -/
theorem too_many_documents_on_extra_payload (parseSig : List Nat → Option (List Nat))
    (st : MdlPresentationSession) (sig : List Nat) (ip : InProcessRecord) (b : List Nat)
    (hip : st.in_process = some ip)
    (hlen : 2 ≤ ip.session.pendingPayloads.length)
    (hsig : parseSig sig = some b) :
    (submit_response parseSig st sig).1 = .error SignatureError.tooManyDocuments := by
  unfold submit_response
  rw [hsig, hip]
  dsimp only
  cases hpp : ip.session.pendingPayloads with
  | nil =>
    rw [hpp] at hlen
    simp only [List.length_nil] at hlen
    omega
  | cons p rest =>
    unfold submit_next_signature
    rw [hpp]
    dsimp only
    unfold retrieve_response
    cases hrest : rest with
    | nil =>
      rw [hpp, hrest] at hlen
      simp only [List.length_cons, List.length_nil] at hlen
      omega
    | cons q t => simp

/-- Witness for C6: a session whose signing step produced two pending
payloads rejects the submission with `TooManyDocuments`. -/
theorem too_many_documents_on_extra_payload_witness :
    (⟨some ⟨⟨[[7], [8]], [], [5]⟩, [0]⟩⟩ : MdlPresentationSession).in_process =
        some ⟨⟨[[7], [8]], [], [5]⟩, [0]⟩ ∧
    2 ≤ (⟨⟨[[7], [8]], [], [5]⟩, [0]⟩ : InProcessRecord).session.pendingPayloads.length ∧
    (fun l : List Nat => some l) [9] = some [9] ∧
    (submit_response (fun l : List Nat => some l)
        ⟨some ⟨⟨[[7], [8]], [], [5]⟩, [0]⟩⟩ [9]).1 =
      .error SignatureError.tooManyDocuments :=
  ⟨rfl, by decide, rfl,
   too_many_documents_on_extra_payload (fun l : List Nat => some l)
     ⟨some ⟨⟨[[7], [8]], [], [5]⟩, [0]⟩⟩ [9] ⟨⟨[[7], [8]], [], [5]⟩, [0]⟩ [9]
     rfl (by decide) rfl⟩

/-! ### Verifier and OID4VP claims -/

/-- C3: `MdocVerifier::verify` reports `valid = true` for every parseable
mdoc regardless of the supplied anchors — `verify_issuer_cert` performs no
cryptographic validation at all and returns `true` on both of its branches.
Evaluated here both in general and at a concrete input with a non-empty,
unrelated anchor list. -/
theorem mdocVerifier_valid_unconditionally :
    (∀ (m : MdocDoc) (n : Nat), verify_issuer_cert m n = true) ∧
    MdocVerifier.verify (fun a => if a == 5 then some ⟨0, 1, some true, true, 0⟩ else none)
        (fun _ => some ⟨7, [(1, 2)]⟩) 3 [5] =
      some { valid := true, doc_type := 7, data := [(1, 2)] } := by
  constructor
  · intro m n
    unfold verify_issuer_cert
    split <;> rfl
  · rfl

/-- C2 (amended): with no anchors, `verify_oid4vp_response` hands an empty
trust-anchor registry to response validation; but `MdocVerifier::verify`
with an empty anchor list reports `valid = true` for every parseable mdoc
(structure-only success), not an Unchecked status — its result has no
tri-state status at all. -/
theorem empty_anchor_handling (verif : Cert → Cert → Bool)
    (ic : Bool) (x5 : Option (List (Option Cert)))
    (pa : Nat → Option Cert) (pm : Nat → Option MdocDoc) (m : Nat) (d : MdocDoc)
    (h : pm m = some d) :
    oid4vpRegistry verif none ic x5 = [] ∧
    MdocVerifier.verify pa pm m [] =
      some { valid := true, doc_type := d.docType, data := d.details } := by
  constructor
  · rfl
  · unfold MdocVerifier.verify
    rw [h]
    rfl

/-- Witness for the amended C2 at concrete parse functions and mdoc. -/
theorem empty_anchor_handling_witness :
    (fun _ : Nat => some (⟨7, [(1, 2)]⟩ : MdocDoc)) 3 = some ⟨7, [(1, 2)]⟩ ∧
    (oid4vpRegistry (fun _ _ => true) none true none = [] ∧
      MdocVerifier.verify (fun _ => none) (fun _ => some ⟨7, [(1, 2)]⟩) 3 [] =
        some { valid := true, doc_type := 7, data := [(1, 2)] }) :=
  ⟨rfl, empty_anchor_handling (fun _ _ => true) true none (fun _ => none)
    (fun _ => some ⟨7, [(1, 2)]⟩) 3 ⟨7, [(1, 2)]⟩ rfl⟩

/-- Counterexample to C2 as stated: `MdocVerifier::verify` called with an
empty anchor list on a parseable mdoc reports the success outcome
`valid = true`, not an Unchecked issuer-authentication outcome. -/
theorem empty_anchors_reports_success :
    MdocVerifier.verify (fun _ => none) (fun _ => some ⟨0, []⟩) 0 [] =
      some { valid := true, doc_type := 0, data := [] } := by
  rfl

/-- C9: for every SHA-256 primitive, parse outcome and downstream validator,
`verify_oid4vp_response` binds all downstream issuer/device authentication
checks to the fixed 3-element session transcript
`[null, null, [SHA-256(clientId), SHA-256(responseUri), nonce]]`, the hashes
taken over the UTF-8 bytes of `client_id` and `response_uri`. -/
theorem oid4vp_transcript_binding (sha256 : List Nat → List Nat)
    (parse : List Nat → Option ParsedDoc)
    (validate : OID4VPSessionTranscript → List Cert → Nat → Nat → Nat → ValidationResult)
    (verif : Cert → Cert → Bool)
    (response nonce client_id response_uri : List Nat)
    (anchors : Option (List Cert)) (ic : Bool) (pd : ParsedDoc)
    (h : parse response = some pd) :
    verify_oid4vp_response sha256 parse validate verif response nonce client_id
        response_uri anchors ic =
      some { responseData := (validate
                { deviceEngagementBytes := none
                  eReaderKeyBytes := none
                  handover :=
                    { clientIdHash := sha256 client_id
                      responseUriHash := sha256 response_uri
                      nonce := nonce } }
                (oid4vpRegistry verif anchors ic pd.x5chainCbor)
                pd.x5 pd.doc pd.namespaces).responseData
             issuer_authentication := (validate
                { deviceEngagementBytes := none
                  eReaderKeyBytes := none
                  handover :=
                    { clientIdHash := sha256 client_id
                      responseUriHash := sha256 response_uri
                      nonce := nonce } }
                (oid4vpRegistry verif anchors ic pd.x5chainCbor)
                pd.x5 pd.doc pd.namespaces).issuer_authentication
             device_authentication := (validate
                { deviceEngagementBytes := none
                  eReaderKeyBytes := none
                  handover :=
                    { clientIdHash := sha256 client_id
                      responseUriHash := sha256 response_uri
                      nonce := nonce } }
                (oid4vpRegistry verif anchors ic pd.x5chainCbor)
                pd.x5 pd.doc pd.namespaces).device_authentication
             errors := (validate
                { deviceEngagementBytes := none
                  eReaderKeyBytes := none
                  handover :=
                    { clientIdHash := sha256 client_id
                      responseUriHash := sha256 response_uri
                      nonce := nonce } }
                (oid4vpRegistry verif anchors ic pd.x5chainCbor)
                pd.x5 pd.doc pd.namespaces).errors } := by
  unfold verify_oid4vp_response
  rw [h]

/-- Witness for C9 at a concrete hash function, parse outcome and validator:
the validator sees exactly the hashes `7 :: clientId` and `7 :: responseUri`
and the nonce, so its output reproduces them. -/
theorem oid4vp_transcript_binding_witness :
    (fun _ : List Nat => some (⟨none, 1, 2, 3⟩ : ParsedDoc)) [0] = some ⟨none, 1, 2, 3⟩ ∧
    verify_oid4vp_response (fun l => 7 :: l)
        (fun _ => some ⟨none, 1, 2, 3⟩)
        (fun t _ _ _ _ => ⟨t.handover.clientIdHash.length, .unchecked, .unchecked,
          t.handover.responseUriHash ++ t.handover.nonce⟩)
        (fun _ _ => true) [0] [4] [5] [6] none false =
      some ⟨2, .unchecked, .unchecked, [7, 6, 4]⟩ :=
  ⟨rfl, oid4vp_transcript_binding (fun l => 7 :: l) (fun _ => some ⟨none, 1, 2, 3⟩)
    (fun t _ _ _ _ => ⟨t.handover.clientIdHash.length, .unchecked, .unchecked,
      t.handover.responseUriHash ++ t.handover.nonce⟩)
    (fun _ _ => true) [0] [4] [5] [6] none false ⟨none, 1, 2, 3⟩ rfl⟩

end IsomdlUniffi
